import Mathlib

/-
Verification of the report decryption pipeline of the Macless Haystack web
application (src/app.js).  JavaScript `Uint8Array` values and binary strings
are modelled as `List Nat` whose elements are below 256; JavaScript strings
are modelled as `List Char`.
-/

namespace Haystack

/-! ### Byte codec (src/app.js lines 51-82) -/

-- Code point of the standard base64 alphabet character at index n,
-- as used by btoa and atob.
def b64Code (n : Nat) : Nat :=
  if n < 26 then 65 + n
  else if n < 52 then 97 + (n - 26)
  else if n < 62 then 48 + (n - 52)
  else if n = 62 then 43 else 47

def b64Char (n : Nat) : Char := Char.ofNat (b64Code n)

-- Numeric value atob assigns to a base64 alphabet character.
def b64Val (c : Char) : Nat :=
  let n := c.toNat
  if 65 ≤ n ∧ n ≤ 90 then n - 65
  else if 97 ≤ n ∧ n ≤ 122 then n - 71
  else if 48 ≤ n ∧ n ≤ 57 then n + 4
  else if n = 43 then 62
  else if n = 47 then 63
  else 0

/-- `bytesToBase64` (src/app.js lines 61-68): builds the binary string from
the bytes and base64-encodes it with `btoa`: four output characters per
three input bytes, with `=`-padding for a 1- or 2-byte leftover. -/
def bytesToBase64 : List Nat → List Char
  | [] => []
  | [a] => [b64Char (a / 4), b64Char (a % 4 * 16), '=', '=']
  | [a, b] => [b64Char (a / 4), b64Char (a % 4 * 16 + b / 16), b64Char (b % 16 * 4), '=']
  | a :: b :: c :: rest =>
    b64Char (a / 4) :: b64Char (a % 4 * 16 + b / 16) ::
      b64Char (b % 16 * 4 + c / 64) :: b64Char (c % 64) :: bytesToBase64 rest

-- Core of atob on the input with its = padding removed: four characters
-- yield three bytes, a three-character leftover yields two bytes, a
-- two-character leftover yields one byte.
def b64DecodeCore : List Char → List Nat
  | c1 :: c2 :: c3 :: c4 :: rest =>
    (b64Val c1 * 4 + b64Val c2 / 16) ::
      (b64Val c2 % 16 * 16 + b64Val c3 / 4) ::
        (b64Val c3 % 4 * 64 + b64Val c4) :: b64DecodeCore rest
  | [c1, c2, c3] => [b64Val c1 * 4 + b64Val c2 / 16, b64Val c2 % 16 * 16 + b64Val c3 / 4]
  | [c1, c2] => [b64Val c1 * 4 + b64Val c2 / 16]
  | _ => []

/-- `base64ToBytes` (src/app.js lines 51-59): `atob` (drop the `=` padding,
decode the 6-bit groups) followed by reading the code units of the
resulting binary string. -/
def base64ToBytes (s : List Char) : List Nat :=
  b64DecodeCore (s.filter (fun c => c != '='))

-- Character Number.prototype.toString(16) produces for one hex digit
-- (lowercase letters).
def hexDigitChar (n : Nat) : Char := Char.ofNat (if n < 10 then 48 + n else 87 + n)

-- Value parseInt(-, 16) assigns to one hex digit character.
def hexDigitVal (c : Char) : Nat :=
  let n := c.toNat
  if 48 ≤ n ∧ n ≤ 57 then n - 48
  else if 97 ≤ n ∧ n ≤ 102 then n - 87
  else if 65 ≤ n ∧ n ≤ 70 then n - 55
  else 0

/-- `bytesToHex` (src/app.js lines 79-82): every byte becomes
`b.toString(16).padStart(2, '0')`, i.e. exactly two lowercase hex digits. -/
def bytesToHex : List Nat → List Char
  | [] => []
  | b :: rest => hexDigitChar (b / 16) :: hexDigitChar (b % 16) :: bytesToHex rest

/-- `hexToBytes` (src/app.js lines 70-77): reads consecutive two-character
groups with `parseInt(hex.substr(2 * i, 2), 16)`. -/
def hexToBytes : List Char → List Nat
  | c1 :: c2 :: rest => (hexDigitVal c1 * 16 + hexDigitVal c2) :: hexToBytes rest
  | _ => []

/-! ### Big-endian extraction and the 89-byte payload correction -/

/-- `new DataView(bytes.buffer).getUint32(0, false)`: big-endian 32-bit read
of the first four bytes (src/app.js line 254 and line 274). -/
def beUint32 (l : List Nat) : Nat :=
  l.getD 0 0 * 16777216 + l.getD 1 0 * 65536 + l.getD 2 0 * 256 + l.getD 3 0

/-- The payload-length correction of `decryptReport` (src/app.js lines
243-248): when the base64-decoded payload is longer than 88 bytes, the byte
at index 4 is dropped (`slice(0, 4)` followed by `slice(5)`). -/
def correctPayload (l : List Nat) : List Nat :=
  if l.length > 88 then l.take 4 ++ l.drop 5 else l

inductive BatteryStatus
  | ok
  | medium
  | low
  | critical
deriving DecidableEq, Repr

-- The array literal `['ok', 'medium', 'low', 'critical']` of src/app.js
-- line 291.
def batteryStatuses : List BatteryStatus :=
  [.ok, .medium, .low, .critical]

structure DecodedLocation where
  latitude : ℚ
  longitude : ℚ
  accuracy : Nat
  datePublished : Int
  timestampMs : Int
  confidence : Nat
  batteryStatus : Option BatteryStatus
deriving DecidableEq, Repr

/-- `decodePayload` (src/app.js lines 270-304) over the 10-byte decrypted
plaintext.  The JavaScript number arithmetic on the coordinates is modelled
over `ℚ`; a plaintext shorter than 10 bytes makes `DataView` throw a
`RangeError`, modelled as `none`.  The two latitude `if` statements run in
sequence (the second tests the already-corrected value), and likewise for
longitude; `batteryStatuses[batteryLevel] || null` always hits the array
because `(status >>> 6) & 3 < 4`. -/
def decodePayload (payload : List Nat) (datePublished timestampMs : Int)
    (confidence : Nat) : Option DecodedLocation :=
  if payload.length < 10 then none
  else
    let latitudeRaw := beUint32 payload
    let longitudeRaw := beUint32 (payload.drop 4)
    let accuracy := payload.getD 8 0
    let status := payload.getD 9 0
    let latitude : ℚ := (latitudeRaw : ℚ) / 10000000
    let longitude : ℚ := (longitudeRaw : ℚ) / 10000000
    let pointCorrection : ℚ := 4294967295 / 10000000
    let latitude := if latitude > 90 then latitude - pointCorrection else latitude
    let latitude := if latitude < -90 then latitude + pointCorrection else latitude
    let longitude := if longitude > 180 then longitude - pointCorrection else longitude
    let longitude := if longitude < -180 then longitude + pointCorrection else longitude
    let batteryStatus : Option BatteryStatus :=
      if status &&& 32 ≠ 0 ∨ status > 0 then
        some (batteryStatuses.getD (status >>> 6 &&& 3) .ok)
      else none
    some { latitude := latitude, longitude := longitude, accuracy := accuracy,
           datePublished := datePublished, timestampMs := timestampMs,
           confidence := confidence, batteryStatus := batteryStatus }

/-- Modelled from the spec: the wraparound correction of §4.6 step 6, stated
independently of `decodePayload` — subtract `0xFFFFFFFF / 10_000_000` when
the value exceeds the bound, then add it when the (corrected) value is below
the negated bound. -/
def specWraparound (v bound : ℚ) : ℚ :=
  let v1 := if v > bound then v - 4294967295 / 10000000 else v
  if v1 < -bound then v1 + 4294967295 / 10000000 else v1

/-! ### Report framing and the seen-timestamp (src/app.js lines 238-268) -/

-- ECMAScript DayFromYear: days from 1970-01-01 to January 1 of year y.
def dayFromYear (y : Int) : Int :=
  365 * (y - 1970) + (y - 1969).fdiv 4 - (y - 1901).fdiv 100 + (y - 1601).fdiv 400

-- ECMAScript leap-year predicate (DaysInYear = 366).
def isLeapYear (y : Int) : Bool :=
  (y % 4 == 0 && y % 100 != 0) || y % 400 == 0

-- Days from January 1 up to the first day of the month with the given
-- zero-based index (ECMAScript DayWithinYear tables).
def monthOffsets (leap : Bool) : List Int :=
  if leap then [0, 31, 60, 91, 121, 152, 182, 213, 244, 274, 305, 335]
  else [0, 31, 59, 90, 120, 151, 181, 212, 243, 273, 304, 334]

/-- `Date.UTC(y, monthIndex, day)` at midnight, in milliseconds since the
Unix epoch (ECMAScript MakeDay/MakeDate for in-range arguments). -/
def dateUTCms (y : Int) (monthIndex : Nat) (day : Int) : Int :=
  (dayFromYear y + (monthOffsets (isLeapYear y)).getD monthIndex 0 + (day - 1)) * 86400000

/-- The timestamp computation of `decryptReport` (src/app.js lines 254-256):
`new Date(Date.UTC(2001, 0, 1))` followed by `setSeconds(seenTimeStamp)`,
which adds exactly `seenTimeStamp` seconds because the initial seconds field
is zero.  The argument is the corrected payload. -/
def seenTimestampMs (payloadData : List Nat) : Int :=
  dateUTCms 2001 0 1 + 1000 * (beUint32 payloadData : Int)

structure ReportFrame where
  ephemeralKey : List Nat
  encData : List Nat
  tag : List Nat
  seenTimeStamp : Nat
  timestampMs : Int
  confidence : Nat
deriving DecidableEq, Repr

/-- The framing part of `decryptReport` (src/app.js lines 239-257): apply
the 89-byte correction, then slice the ephemeral key (bytes 5..62), the
ciphertext (bytes 62..72) and the tag (bytes 72..end), and read the
big-endian seen-timestamp from bytes 0..4.  A corrected payload shorter
than 4 bytes makes `getUint32` throw, modelled as `none`. -/
def decryptReportParse (raw : List Nat) : Option ReportFrame :=
  let payloadData := correctPayload raw
  if payloadData.length < 4 then none
  else some
    { ephemeralKey := (payloadData.drop 5).take 57
      encData := (payloadData.drop 62).take 10
      tag := payloadData.drop 72
      seenTimeStamp := beUint32 payloadData
      timestampMs := seenTimestampMs payloadData
      confidence := payloadData.getD 4 0 }

-- Big-endian value of a byte list, most significant byte first
-- (spec-side formulation for the 4-byte seen-timestamp field).
def bigEndianVal (l : List Nat) : Nat :=
  l.foldl (fun a b => 256 * a + b) 0

/-! ### KDF (src/app.js lines 175-183) -/

/-- `kdf(secret, ephemeralKey)` (src/app.js lines 176-183): hash the
concatenation `secret || [0,0,0,1] || ephemeralKey` with SHA-256.  The hash
itself is an external primitive (Web Crypto or noble), abstracted as the
function argument `sha256`. -/
def kdf (sha256 : List Nat → List Nat) (secret ephemeralKey : List Nat) : List Nat :=
  sha256 (secret ++ [0, 0, 0, 1] ++ ephemeralKey)

-- The w-byte big-endian encoding of n (spec-side `counter32` is
-- `beEncode 4 1`).
def beEncode : Nat → Nat → List Nat
  | 0, _ => []
  | w + 1, n => n / 256 ^ w % 256 :: beEncode w n

-- A stand-in hash of the right output length, for instantiating C5.
def constSha32 (x : List Nat) : List Nat := List.replicate 32 (x.length % 256)

/-! ### Authenticated decryption backends (src/app.js lines 185-236) -/

-- Outcome of one AES-GCM backend invocation on (key, iv, ciphertext||tag):
-- the backends themselves (Web Crypto `subtle` and noble/ciphers) are
-- external library code, abstracted as functions into this type.
inductive GcmOutcome
  | ok (plaintext : List Nat)
  | authFailure
  | otherError
deriving DecidableEq, Repr

instance : Inhabited GcmOutcome := ⟨.otherError⟩

-- Which backends the page has (window.crypto.subtle and window.nobleGcm
-- may each be absent).
structure CryptoEnv where
  subtle : Option (List Nat → List Nat → List Nat → GcmOutcome)
  noble : Option (List Nat → List Nat → List Nat → GcmOutcome)

inductive DecryptFailure
  | noDecryptionAvailable
deriving DecidableEq, Repr

structure DecryptTrace where
  result : Except DecryptFailure (List Nat)
  subtleInvoked : Bool
  nobleInvoked : Bool

/-- `decryptPayload` (src/app.js lines 186-236): split the symmetric key
into a 16-byte AES key and the IV; try the Web Crypto backend and return
its plaintext on success; on ANY exception (authentication failures
included, the catch does not discriminate) fall through to the noble
backend; likewise return its plaintext or fall through on any error; when
no backend run succeeded, throw `No AES-GCM decryption available`.  The
trace records which backends were invoked. -/
def decryptPayload (env : CryptoEnv) (cipherText symmetricKey tag : List Nat) :
    DecryptTrace :=
  let decryptionKey := symmetricKey.take 16
  let iv := symmetricKey.drop 16
  let dataToDecrypt := cipherText ++ tag
  let nobleTry : Bool → DecryptTrace := fun si =>
    match env.noble with
    | some run =>
      match run decryptionKey iv dataToDecrypt with
      | .ok pt => { result := .ok pt, subtleInvoked := si, nobleInvoked := true }
      | _ => { result := .error .noDecryptionAvailable, subtleInvoked := si, nobleInvoked := true }
    | none => { result := .error .noDecryptionAvailable, subtleInvoked := si, nobleInvoked := false }
  match env.subtle with
  | some run =>
    match run decryptionKey iv dataToDecrypt with
    | .ok pt => { result := .ok pt, subtleInvoked := true, nobleInvoked := false }
    | _ => nobleTry true
  | none => nobleTry false

-- An available backend that accepts (key, iv, data) and returns plaintext.
def backendSucceeds (b : Option (List Nat → List Nat → List Nat → GcmOutcome))
    (key iv data : List Nat) : Prop :=
  ∃ run pt, b = some run ∧ run key iv data = .ok pt

-- Both backends present and both reporting a failed tag verification, as
-- happens for any genuinely tampered ciphertext (the two backends compute
-- the same AES-GCM function).
def bothAuthFailEnv : CryptoEnv :=
  { subtle := some fun _ _ _ => .authFailure, noble := some fun _ _ _ => .authFailure }

/-! ### Batch orchestrator (src/app.js lines 1571-1625) -/

structure Accessory where
  id : Nat
  name : Nat
  privateKey : Nat
  active : Bool
deriving DecidableEq, Repr

-- The record `decryptReport` resolves with, as consumed by the
-- orchestrator (lines 1590-1600); raw reports are opaque and modelled
-- as Nat.
structure DecryptedReport where
  latitude : ℚ
  longitude : ℚ
  timestampMs : Int
  accuracy : Nat
  confidence : Nat
  batteryStatus : Option BatteryStatus
deriving DecidableEq, Repr

-- One element of `allLocations` (lines 1591-1600).
structure LocationEntry where
  accessoryId : Nat
  accessoryName : Nat
  lat : ℚ
  lng : ℚ
  timestamp : Int
  accuracy : Nat
  confidence : Nat
  batteryStatus : Option BatteryStatus
deriving DecidableEq, Repr

-- The effectful collaborators of `fetchLocations`, as functions returning
-- success or a thrown error: identity derivation (which throws when the
-- secp224r1 curve is not loaded), the endpoint query, and per-report
-- decryption.
structure FetchEnv where
  hashedAdvertisementKey : Nat → Except Unit Nat
  fetchReports : Nat → Except Unit (List Nat)
  decryptReport : Nat → Nat → Except Unit DecryptedReport

def mkEntry (acc : Accessory) (d : DecryptedReport) : LocationEntry :=
  { accessoryId := acc.id, accessoryName := acc.name, lat := d.latitude,
    lng := d.longitude, timestamp := d.timestampMs, accuracy := d.accuracy,
    confidence := d.confidence, batteryStatus := d.batteryStatus }

/-- The inner report loop (lines 1588-1604): a failed decryption is caught,
logged (counted here), and the loop continues. -/
def decryptLoop (env : FetchEnv) (acc : Accessory) :
    List Nat → List LocationEntry × Nat
  | [] => ([], 0)
  | r :: rest =>
    match env.decryptReport r acc.privateKey with
    | .ok d =>
      let p := decryptLoop env acc rest
      (mkEntry acc d :: p.1, p.2)
    | .error _ =>
      let p := decryptLoop env acc rest
      (p.1, p.2 + 1)

/-- One iteration of the device loop (lines 1583-1608): derive the hashed
key, query the endpoint, decrypt the returned reports; any failure of the
first two steps is caught by the per-device catch.  Result components:
locations, device failures logged, report failures logged, hashed keys
actually queried. -/
def processDevice (env : FetchEnv) (acc : Accessory) :
    List LocationEntry × Nat × Nat × List Nat :=
  match env.hashedAdvertisementKey acc.privateKey with
  | .error _ => ([], 1, 0, [])
  | .ok hk =>
    match env.fetchReports hk with
    | .error _ => ([], 1, 0, [hk])
    | .ok reports =>
      let p := decryptLoop env acc reports
      (p.1, 0, p.2, [hk])

def combineBatch (x y : List LocationEntry × Nat × Nat × List Nat) :
    List LocationEntry × Nat × Nat × List Nat :=
  (x.1 ++ y.1, x.2.1 + y.2.1, x.2.2.1 + y.2.2.1, x.2.2.2 ++ y.2.2.2)

def fetchLoop (env : FetchEnv) : List Accessory → List LocationEntry × Nat × Nat × List Nat
  | [] => ([], 0, 0, [])
  | a :: rest => combineBatch (processDevice env a) (fetchLoop env rest)

def tsLe (a b : LocationEntry) : Prop := a.timestamp ≤ b.timestamp

instance : DecidableRel tsLe :=
  fun a b => inferInstanceAs (Decidable (a.timestamp ≤ b.timestamp))

instance : IsTotal LocationEntry tsLe := ⟨fun a b => Int.le_total a.timestamp b.timestamp⟩

instance : IsTrans LocationEntry tsLe := ⟨fun _ _ _ h1 h2 => le_trans h1 h2⟩

/-- `allLocations.sort((a, b) => a.timestamp - b.timestamp)` (line 1610):
an ascending sort by timestamp; ECMAScript 2019 requires
`Array.prototype.sort` to be stable, so it is modelled by a stable
insertion sort. -/
def sortLocations (l : List LocationEntry) : List LocationEntry :=
  List.insertionSort tsLe l

structure BatchResult where
  locations : List LocationEntry
  toastCount : Nat
  deviceFailures : Nat
  reportFailures : Nat
  queried : List Nat
deriving DecidableEq, Repr

inductive FetchOutcome
  | noActiveDevices
  | aborted
  | done (r : BatchResult)
deriving DecidableEq, Repr

/-- `fetchLocations` (src/app.js lines 1571-1625): filter the active
accessories (early warning-return when none), run the device loop, sort,
and show the success toast `Fetched N location(s)` with N the number of
locations.  `aborted` models the outer catch branch (error toast, no
result); it is unreachable for the modelled failure sources because every
per-device and per-report failure is caught inside the loop. -/
def fetchLocations (env : FetchEnv) (accessories : List Accessory) : FetchOutcome :=
  let active := accessories.filter (fun a => a.active)
  if active.isEmpty then .noActiveDevices
  else
    let p := fetchLoop env active
    let sorted := sortLocations p.1
    .done { locations := sorted, toastCount := sorted.length,
            deviceFailures := p.2.1, reportFailures := p.2.2.1, queried := p.2.2.2 }

-- Identity derivation failing for every device, as when the secp224r1
-- curve implementation cannot be loaded.
def curveDownEnv : FetchEnv :=
  { hashedAdvertisementKey := fun _ => .error (),
    fetchReports := fun _ => .ok [],
    decryptReport := fun _ _ => .error () }

def twoAccessories : List Accessory :=
  [{ id := 1, name := 1, privateKey := 1, active := true },
   { id := 2, name := 2, privateKey := 2, active := true }]

def curveDownResult : BatchResult :=
  { locations := [], toastCount := 0, deviceFailures := 2,
    reportFailures := 0, queried := [] }

-- Device 1's query fails, device 2 returns two reports that decrypt fine.
def mixedEnv : FetchEnv :=
  { hashedAdvertisementKey := fun k => .ok k,
    fetchReports := fun hk => if hk = 1 then .error () else .ok [10, 11],
    decryptReport := fun r _ =>
      .ok { latitude := 0, longitude := 0, timestampMs := (r : Int),
            accuracy := 0, confidence := 0, batteryStatus := none } }

def mixedEnvResult : BatchResult :=
  { locations :=
      [{ accessoryId := 2, accessoryName := 2, lat := 0, lng := 0, timestamp := 10,
         accuracy := 0, confidence := 0, batteryStatus := none },
       { accessoryId := 2, accessoryName := 2, lat := 0, lng := 0, timestamp := 11,
         accuracy := 0, confidence := 0, batteryStatus := none }],
    toastCount := 2, deviceFailures := 1, reportFailures := 0, queried := [1, 2] }

-- One device, two reports decrypting to EQUAL timestamps but different
-- accuracies, to exhibit sort stability.
def tieEnv : FetchEnv :=
  { hashedAdvertisementKey := fun k => .ok k,
    fetchReports := fun _ => .ok [20, 21],
    decryptReport := fun r _ =>
      .ok { latitude := 0, longitude := 0, timestampMs := 5,
            accuracy := r, confidence := 0, batteryStatus := none } }

def oneAccessory : List Accessory :=
  [{ id := 3, name := 3, privateKey := 3, active := true }]

def tieEnvResult : BatchResult :=
  { locations :=
      [{ accessoryId := 3, accessoryName := 3, lat := 0, lng := 0, timestamp := 5,
         accuracy := 20, confidence := 0, batteryStatus := none },
       { accessoryId := 3, accessoryName := 3, lat := 0, lng := 0, timestamp := 5,
         accuracy := 21, confidence := 0, batteryStatus := none }],
    toastCount := 2, deviceFailures := 0, reportFailures := 0, queried := [3] }

-- Platform backend present and succeeding, software backend absent.
def subtleOnlyEnv : CryptoEnv :=
  { subtle := some fun _ _ _ => .ok [9], noble := none }

/-! ### Codec and correction lemmas -/

theorem b64Val_b64Char : ∀ n, n < 64 → b64Val (b64Char n) = n := by decide

theorem b64Char_ne_pad : ∀ n, n < 64 → (b64Char n != '=') = true := by decide

theorem hexVal_hexChar : ∀ n, n < 16 → hexDigitVal (hexDigitChar n) = n := by decide

theorem hexToBytes_bytesToHex (l : List Nat) (h : ∀ x ∈ l, x < 256) :
    hexToBytes (bytesToHex l) = l := by
  induction l with
  | nil => rfl
  | cons b rest ih =>
    have hb : b < 256 := h b (List.mem_cons_self _ _)
    have h1 : hexDigitVal (hexDigitChar (b / 16)) = b / 16 :=
      hexVal_hexChar _ (by omega)
    have h2 : hexDigitVal (hexDigitChar (b % 16)) = b % 16 :=
      hexVal_hexChar _ (by omega)
    have ih2 := ih (fun x hx => h x (List.mem_cons_of_mem _ hx))
    simp only [bytesToHex, hexToBytes, h1, h2, ih2, List.cons.injEq, and_true]
    omega

theorem base64ToBytes_bytesToBase64 :
    ∀ l : List Nat, (∀ x ∈ l, x < 256) → base64ToBytes (bytesToBase64 l) = l
  | [], _ => rfl
  | [a], h => by
    have ha : a < 256 := h a (by simp)
    have e1 := b64Char_ne_pad (a / 4) (by omega)
    have e2 := b64Char_ne_pad (a % 4 * 16) (by omega)
    have v1 := b64Val_b64Char (a / 4) (by omega)
    have v2 := b64Val_b64Char (a % 4 * 16) (by omega)
    simp only [bytesToBase64, base64ToBytes, List.filter, e1, e2, bne_self_eq_false,
      b64DecodeCore, v1, v2, List.cons.injEq, and_true]
    omega
  | [a, b], h => by
    have ha : a < 256 := h a (by simp)
    have hb : b < 256 := h b (by simp)
    have e1 := b64Char_ne_pad (a / 4) (by omega)
    have e2 := b64Char_ne_pad (a % 4 * 16 + b / 16) (by omega)
    have e3 := b64Char_ne_pad (b % 16 * 4) (by omega)
    have v1 := b64Val_b64Char (a / 4) (by omega)
    have v2 := b64Val_b64Char (a % 4 * 16 + b / 16) (by omega)
    have v3 := b64Val_b64Char (b % 16 * 4) (by omega)
    simp only [bytesToBase64, base64ToBytes, List.filter, e1, e2, e3, bne_self_eq_false,
      b64DecodeCore, v1, v2, v3, List.cons.injEq, and_true]
    omega
  | a :: b :: c :: rest, h => by
    have ha : a < 256 := h a (by simp)
    have hb : b < 256 := h b (by simp)
    have hc : c < 256 := h c (by simp)
    have e1 := b64Char_ne_pad (a / 4) (by omega)
    have e2 := b64Char_ne_pad (a % 4 * 16 + b / 16) (by omega)
    have e3 := b64Char_ne_pad (b % 16 * 4 + c / 64) (by omega)
    have e4 := b64Char_ne_pad (c % 64) (by omega)
    have v1 := b64Val_b64Char (a / 4) (by omega)
    have v2 := b64Val_b64Char (a % 4 * 16 + b / 16) (by omega)
    have v3 := b64Val_b64Char (b % 16 * 4 + c / 64) (by omega)
    have v4 := b64Val_b64Char (c % 64) (by omega)
    have ih := base64ToBytes_bytesToBase64 rest
      (fun x hx => h x (by simp [hx]))
    simp only [base64ToBytes] at ih
    simp only [bytesToBase64, base64ToBytes, List.filter_cons, e1, e2, e3, e4, if_true,
      b64DecodeCore, v1, v2, v3, v4, ih, List.cons.injEq, and_true]
    omega

/-! ### Claim theorems: C10 and C3 -/

/-- Claim C10: for every byte array b, base64ToBytes (bytesToBase64 b) = b and
hexToBytes (bytesToHex b) = b; both encode/decode pairs are round-trip
identities on arbitrary byte sequences. -/
theorem claim_c10_codec_roundtrip (l : List Nat) (h : ∀ x ∈ l, x < 256) :
    base64ToBytes (bytesToBase64 l) = l ∧ hexToBytes (bytesToHex l) = l :=
  ⟨base64ToBytes_bytesToBase64 l h, hexToBytes_bytesToHex l h⟩

theorem claim_c10_codec_roundtrip_witness :
    base64ToBytes (bytesToBase64 [0, 171, 255, 7]) = [0, 171, 255, 7] ∧
    hexToBytes (bytesToHex [0, 171, 255, 7]) = [0, 171, 255, 7] :=
  claim_c10_codec_roundtrip [0, 171, 255, 7] (by decide)

/-- Claim C3 counterexample: the claim states that after the correction every
payload longer than 88 bytes measures exactly 88 bytes; but a 90-byte
payload is corrected to 89 bytes, not 88 (only one byte is ever dropped). -/
theorem claim_c3_counterexample :
    (correctPayload (List.replicate 90 0)).length = 89 ∧ (89 : Nat) ≠ 88 := by
  constructor
  · decide
  · decide

/-- Claim C3 (amended): for every payload longer than 88 bytes the correction
keeps bytes [0..4) and [5..end), so the length shrinks by exactly one and is
88 exactly when the input was 89 bytes long; and for every 89-byte payload
formed by inserting an arbitrary byte at offset 4 of an 88-byte original,
the corrected payload equals the original, for all injected byte values. -/
theorem claim_c3_amended (l orig : List Nat) (b : Nat) :
    (88 < l.length →
      correctPayload l = l.take 4 ++ l.drop 5 ∧
      (correctPayload l).length = l.length - 1 ∧
      ((correctPayload l).length = 88 ↔ l.length = 89)) ∧
    (orig.length = 88 →
      correctPayload (orig.take 4 ++ b :: orig.drop 4) = orig) := by
  constructor
  · intro h
    have hif : correctPayload l = l.take 4 ++ l.drop 5 := by
      simp [correctPayload, h]
    refine ⟨hif, ?_, ?_⟩
    · rw [hif]; simp only [List.length_append, List.length_take, List.length_drop]; omega
    · rw [hif]; simp only [List.length_append, List.length_take, List.length_drop]
      omega
  · intro h88
    have ht4 : (orig.take 4).length = 4 := by
      simp [List.length_take, h88]
    have hlen : (orig.take 4 ++ b :: orig.drop 4).length = 89 := by
      simp only [List.length_append, List.length_cons, List.length_drop, ht4, h88]
    have hgt : (orig.take 4 ++ b :: orig.drop 4).length > 88 := by omega
    simp only [correctPayload, hgt, if_pos]
    rw [List.take_append_of_le_length (by omega), List.take_of_length_le (by omega)]
    have hdrop : (orig.take 4 ++ b :: orig.drop 4).drop 5 = orig.drop 4 := by
      rw [show (5 : Nat) = (orig.take 4 ++ [b]).length by simp [ht4]]
      rw [show orig.take 4 ++ b :: orig.drop 4 = (orig.take 4 ++ [b]) ++ orig.drop 4 by simp]
      rw [List.drop_left]
    rw [hdrop, List.take_append_drop]

theorem claim_c3_amended_witness :
    correctPayload (List.replicate 90 0) =
      (List.replicate 90 0).take 4 ++ (List.replicate 90 0).drop 5 ∧
    correctPayload ((List.replicate 88 7).take 4 ++ 201 :: (List.replicate 88 7).drop 4) =
      List.replicate 88 7 :=
  ⟨((claim_c3_amended (List.replicate 90 0) (List.replicate 88 7) 201).1 (by decide)).1,
   (claim_c3_amended (List.replicate 90 0) (List.replicate 88 7) 201).2 (by decide)⟩

/-! ### Decoder lemmas -/

theorem shift6_mask3 (s : Nat) : s >>> 6 &&& 3 = s / 64 % 4 := by
  rw [Nat.shiftRight_eq_div_pow, show (3 : Nat) = 2 ^ 2 - 1 from rfl,
    Nat.and_pow_two_sub_one_eq_mod]

theorem beUint32_eq_bigEndianVal (l : List Nat) (h : 4 ≤ l.length) :
    beUint32 l = bigEndianVal (l.take 4) := by
  match l, h with
  | a :: b :: c :: d :: rest, _ =>
    simp only [beUint32, bigEndianVal, List.take, List.foldl, List.getD, List.get?_cons_zero,
      List.get?_cons_succ, Option.getD_some]
    ring

/-! ### Claim theorems: C2 (battery decode) -/

/-- Claim C2 counterexample: the claim's decode table says the status byte
`0b01_100000` (= 96) yields battery status 'ok'; the code computes level
`(96 >> 6) & 3 = 1` and `['ok','medium','low','critical'][1]` is 'medium',
not 'ok'. -/
theorem claim_c2_counterexample :
    Option.map DecodedLocation.batteryStatus
        (decodePayload [0, 0, 0, 0, 0, 0, 0, 0, 0, 96] 0 0 0) =
      some (some BatteryStatus.medium) ∧
    BatteryStatus.medium ≠ BatteryStatus.ok := by
  constructor
  · norm_num [decodePayload, beUint32]
    decide
  · decide

/-- Claim C2 (amended): for a decrypted 10-byte plaintext the decoder maps
status byte `0b01_100000` to 'medium', `0b10_100000` to 'low', and
`0b11_100000` to 'critical'; status 0 yields unknown (no battery reading,
not an error); the level is selected by shifting the status byte right 6
and masking with 0x03 (i.e. `status / 64 % 4`) into
['ok','medium','low','critical']. -/
theorem claim_c2_amended :
    (∀ (p : List Nat) (dp ts : Int) (c : Nat) (loc : DecodedLocation),
      decodePayload p dp ts c = some loc →
      loc.batteryStatus =
        (if p.getD 9 0 = 0 then none
         else some (batteryStatuses.getD (p.getD 9 0 / 64 % 4) BatteryStatus.ok))) ∧
    Option.map DecodedLocation.batteryStatus
        (decodePayload [0, 0, 0, 0, 0, 0, 0, 0, 0, 160] 0 0 0) =
      some (some BatteryStatus.low) ∧
    Option.map DecodedLocation.batteryStatus
        (decodePayload [0, 0, 0, 0, 0, 0, 0, 0, 0, 224] 0 0 0) =
      some (some BatteryStatus.critical) ∧
    Option.map DecodedLocation.batteryStatus
        (decodePayload [0, 0, 0, 0, 0, 0, 0, 0, 0, 0] 0 0 0) =
      some none := by
  refine ⟨?_, ?_, ?_, ?_⟩
  · intro p dp ts c loc h
    rw [decodePayload] at h
    by_cases hlen : p.length < 10
    · rw [if_pos hlen] at h
      exact absurd h (by simp)
    · rw [if_neg hlen] at h
      injection h with h2
      subst h2
      by_cases h0 : p.getD 9 0 = 0
      · have hA : ¬ (p.getD 9 0 &&& 32 ≠ 0 ∨ p.getD 9 0 > 0) := by rw [h0]; decide
        rw [if_neg hA, if_pos h0]
      · have hA : p.getD 9 0 &&& 32 ≠ 0 ∨ p.getD 9 0 > 0 :=
          Or.inr (Nat.pos_of_ne_zero h0)
        rw [if_pos hA, if_neg h0, shift6_mask3]
  · norm_num [decodePayload, beUint32]
    decide
  · norm_num [decodePayload, beUint32]
    decide
  · norm_num [decodePayload, beUint32]

theorem claim_c2_amended_witness :
    DecodedLocation.batteryStatus
        { latitude := 0, longitude := 0, accuracy := 0, datePublished := 0,
          timestampMs := 0, confidence := 0, batteryStatus := some BatteryStatus.medium } =
      (if (96 : Nat) = 0 then none
       else some (batteryStatuses.getD (96 / 64 % 4) BatteryStatus.ok)) := by
  have h : decodePayload [0, 0, 0, 0, 0, 0, 0, 0, 0, 96] 0 0 0 =
      some { latitude := 0, longitude := 0, accuracy := 0, datePublished := 0,
             timestampMs := 0, confidence := 0, batteryStatus := some BatteryStatus.medium } := by
    norm_num [decodePayload, beUint32]
    decide
  exact (claim_c2_amended.1 _ 0 0 0 _ h).trans (by decide)

/-! ### Claim theorems: C4 (coordinate wraparound) -/

/-- Claim C4 counterexample: the claim says `latitudeRaw = 0xFFFFFFFF`
decodes to a small negative latitude near 0; the code decodes it to exactly
0 (the correction subtracts the very same quantity `0xFFFFFFFF / 10^7`), and
0 is not negative. -/
theorem claim_c4_counterexample :
    Option.map DecodedLocation.latitude
        (decodePayload [255, 255, 255, 255, 0, 0, 0, 0, 0, 0] 0 0 0) = some 0 ∧
    ¬ ((0 : ℚ) < 0) := by
  constructor
  · norm_num [decodePayload, beUint32]
  · norm_num

/-- Claim C4 (amended): latitude = latitudeRaw / 10^7 and longitude =
longitudeRaw / 10^7, then the wraparound correction of 0xFFFFFFFF / 10^7 is
subtracted when the value exceeds 90 (180 for longitude) and added when the
corrected value is below -90 (-180); consequently latitudeRaw = 0xFFFFFFFF
decodes to exactly 0 (near 0, not ~429.5), which is not negative. -/
theorem claim_c4_amended :
    (∀ (p : List Nat) (dp ts : Int) (c : Nat), 10 ≤ p.length →
      Option.map (fun loc => (loc.latitude, loc.longitude)) (decodePayload p dp ts c) =
        some (specWraparound ((beUint32 p : ℚ) / 10000000) 90,
          specWraparound ((beUint32 (p.drop 4) : ℚ) / 10000000) 180)) ∧
    Option.map DecodedLocation.latitude
        (decodePayload [255, 255, 255, 255, 0, 0, 0, 0, 0, 0] 0 0 0) = some 0 := by
  constructor
  · intro p dp ts c h
    rw [decodePayload, if_neg (by omega)]
    rfl
  · norm_num [decodePayload, beUint32]

theorem claim_c4_amended_witness :
    Option.map (fun loc => (loc.latitude, loc.longitude))
        (decodePayload [255, 255, 255, 255, 0, 0, 0, 0, 0, 0] 0 0 0) =
      some (specWraparound ((beUint32 [255, 255, 255, 255, 0, 0, 0, 0, 0, 0] : ℚ) / 10000000) 90,
        specWraparound ((beUint32 (List.drop 4 [255, 255, 255, 255, 0, 0, 0, 0, 0, 0]) : ℚ) / 10000000) 180) :=
  claim_c4_amended.1 [255, 255, 255, 255, 0, 0, 0, 0, 0, 0] 0 0 0 (by decide)

/-! ### Claim theorems: C5 (KDF) and C9 (timestamp) -/

/-- Claim C5: for every shared secret and ephemeral key,
kdf(secret, ephemeralKey) equals SHA-256(secret || counter32 || ephemeralKey)
where counter32 is the 4-byte big-endian encoding of the fixed value 1, and
the result is 32 bytes (given that SHA-256 always produces 32 bytes). -/
theorem claim_c5_kdf (sha256 : List Nat → List Nat)
    (hsha : ∀ x, (sha256 x).length = 32) (secret ephemeralKey : List Nat) :
    kdf sha256 secret ephemeralKey = sha256 (secret ++ beEncode 4 1 ++ ephemeralKey) ∧
    (kdf sha256 secret ephemeralKey).length = 32 :=
  ⟨rfl, hsha _⟩

theorem claim_c5_kdf_witness :
    kdf constSha32 [5] [7] = constSha32 ([5] ++ beEncode 4 1 ++ [7]) ∧
    (kdf constSha32 [5] [7]).length = 32 :=
  claim_c5_kdf constSha32 (fun _ => List.length_replicate ..) [5] [7]

/-- Claim C9: `Date.UTC(2001, 0, 1)` is 978307200000 ms, i.e.
2001-01-01T00:00:00Z in Unix time (11323 days of 86400 s each after
1970-01-01, with no leap seconds), and for every report payload the decoded
timestamp equals that epoch plus the seen-timestamp seconds read as a
big-endian uint32 from bytes 0..3 of the corrected payload. -/
theorem claim_c9_timestamp :
    dateUTCms 2001 0 1 = 978307200000 ∧
    ∀ (raw : List Nat) (f : ReportFrame), decryptReportParse raw = some f →
      f.seenTimeStamp = bigEndianVal ((correctPayload raw).take 4) ∧
      f.timestampMs = 978307200000 + 1000 * (bigEndianVal ((correctPayload raw).take 4) : Int) := by
  refine ⟨by decide, ?_⟩
  intro raw f h
  rw [decryptReportParse] at h
  by_cases hlen : (correctPayload raw).length < 4
  · rw [if_pos hlen] at h
    exact absurd h (by simp)
  · rw [if_neg hlen] at h
    injection h with h2
    subst h2
    have hbe : beUint32 (correctPayload raw) = bigEndianVal ((correctPayload raw).take 4) :=
      beUint32_eq_bigEndianVal _ (by omega)
    constructor
    · exact hbe
    · show seenTimestampMs (correctPayload raw) = _
      rw [seenTimestampMs, hbe, show dateUTCms 2001 0 1 = 978307200000 by decide]

/-! ### Claim theorems: C1 (decryption backend fallback) -/

/-- Claim C1 counterexample: with both backends available and both raising
an authentication failure, the code still invokes the software backend
after the platform backend's authentication failure (`nobleInvoked = true`),
and it propagates the `No AES-GCM decryption available` error even though
backends were available — the claim says the software backend is never
invoked after an authentication failure, that the failure surfaces as
`AuthenticationFailure`, and that the no-backend error is propagated only
when no backend is available. -/
theorem claim_c1_counterexample :
    decryptPayload bothAuthFailEnv [1] (List.replicate 32 0) (List.replicate 16 0) =
      { result := .error .noDecryptionAvailable, subtleInvoked := true,
        nobleInvoked := true } ∧
    bothAuthFailEnv =
      { subtle := some fun _ _ _ => .authFailure, noble := some fun _ _ _ => .authFailure } :=
  ⟨rfl, rfl⟩

/-- Claim C1 (amended): no partial plaintext is ever returned — a successful
result is exactly the plaintext one of the backends produced; the software
backend is invoked exactly when it is present and the platform backend did
not succeed (absent, raised an implementation error, or raised an
authentication failure — the catch does not discriminate); the final
`No AES-GCM decryption available` error is propagated exactly when no
available backend succeeded, which includes the case of an authentication
failure in every available backend. -/
theorem claim_c1_amended (env : CryptoEnv) (ct sk tag : List Nat) :
    ((decryptPayload env ct sk tag).nobleInvoked = true ↔
      env.noble.isSome = true ∧
      ¬ backendSucceeds env.subtle (sk.take 16) (sk.drop 16) (ct ++ tag)) ∧
    ((decryptPayload env ct sk tag).result = .error .noDecryptionAvailable ↔
      ¬ backendSucceeds env.subtle (sk.take 16) (sk.drop 16) (ct ++ tag) ∧
      ¬ backendSucceeds env.noble (sk.take 16) (sk.drop 16) (ct ++ tag)) ∧
    (∀ pt, (decryptPayload env ct sk tag).result = .ok pt →
      (∃ run, env.subtle = some run ∧ run (sk.take 16) (sk.drop 16) (ct ++ tag) = .ok pt) ∨
      (∃ run, env.noble = some run ∧ run (sk.take 16) (sk.drop 16) (ct ++ tag) = .ok pt)) := by
  obtain ⟨s, n⟩ := env
  cases s with
  | none =>
    cases n with
    | none => simp [decryptPayload, backendSucceeds]
    | some nr =>
      cases hn : nr (sk.take 16) (sk.drop 16) (ct ++ tag) with
      | ok pt => simp [decryptPayload, backendSucceeds, hn]
      | authFailure => simp [decryptPayload, backendSucceeds, hn]
      | otherError => simp [decryptPayload, backendSucceeds, hn]
  | some sr =>
    cases hs : sr (sk.take 16) (sk.drop 16) (ct ++ tag) with
    | ok pt =>
      cases n with
      | none => simp [decryptPayload, backendSucceeds, hs]
      | some nr => simp [decryptPayload, backendSucceeds, hs]
    | authFailure =>
      cases n with
      | none => simp [decryptPayload, backendSucceeds, hs]
      | some nr =>
        cases hn : nr (sk.take 16) (sk.drop 16) (ct ++ tag) with
        | ok pt => simp [decryptPayload, backendSucceeds, hs, hn]
        | authFailure => simp [decryptPayload, backendSucceeds, hs, hn]
        | otherError => simp [decryptPayload, backendSucceeds, hs, hn]
    | otherError =>
      cases n with
      | none => simp [decryptPayload, backendSucceeds, hs]
      | some nr =>
        cases hn : nr (sk.take 16) (sk.drop 16) (ct ++ tag) with
        | ok pt => simp [decryptPayload, backendSucceeds, hs, hn]
        | authFailure => simp [decryptPayload, backendSucceeds, hs, hn]
        | otherError => simp [decryptPayload, backendSucceeds, hs, hn]

theorem claim_c1_amended_witness :
    (decryptPayload subtleOnlyEnv [1] (List.replicate 32 0) (List.replicate 16 0)).nobleInvoked
      = false := by
  have h :=
    (claim_c1_amended subtleOnlyEnv [1] (List.replicate 32 0) (List.replicate 16 0)).1
  cases hv : (decryptPayload subtleOnlyEnv [1] (List.replicate 32 0)
      (List.replicate 16 0)).nobleInvoked
  · rfl
  · have h2 := h.mp hv
    simp [subtleOnlyEnv] at h2

theorem claim_c9_timestamp_witness :
    ReportFrame.timestampMs
        { ephemeralKey := List.replicate 57 3, encData := List.replicate 10 3,
          tag := List.replicate 16 3, seenTimeStamp := 50529027,
          timestampMs := 1028836227000, confidence := 3 } = 1028836227000 :=
  ((claim_c9_timestamp.2 (List.replicate 88 3)
      { ephemeralKey := List.replicate 57 3, encData := List.replicate 10 3,
        tag := List.replicate 16 3, seenTimeStamp := 50529027,
        timestampMs := 1028836227000, confidence := 3 } (by decide)).2).trans (by decide)

/-! ### Stability lemmas for the timestamp sort -/

theorem filter_orderedInsert_of_eq (x : LocationEntry) (t : Int) (hx : x.timestamp = t) :
    ∀ l : List LocationEntry,
      (List.orderedInsert tsLe x l).filter (fun e => e.timestamp == t) =
        x :: l.filter (fun e => e.timestamp == t)
  | [] => by simp [List.orderedInsert, hx]
  | y :: l => by
    rw [List.orderedInsert]
    by_cases hle : tsLe x y
    · have hxb : (x.timestamp == t) = true := by simp [hx]
      rw [if_pos hle]
      simp only [List.filter_cons, hxb, if_true]
    · have hyb : (y.timestamp == t) = false := by
        simp only [tsLe] at hle
        simp only [beq_eq_false_iff_ne, ne_eq]
        omega
      rw [if_neg hle]
      simp only [List.filter_cons, hyb, Bool.false_eq_true, if_false]
      exact filter_orderedInsert_of_eq x t hx l

theorem filter_orderedInsert_of_ne (x : LocationEntry) (t : Int) (hx : ¬ x.timestamp = t) :
    ∀ l : List LocationEntry,
      (List.orderedInsert tsLe x l).filter (fun e => e.timestamp == t) =
        l.filter (fun e => e.timestamp == t)
  | [] => by simp [List.orderedInsert, hx]
  | y :: l => by
    have hxb : (x.timestamp == t) = false := by
      simp only [beq_eq_false_iff_ne, ne_eq]
      exact hx
    rw [List.orderedInsert]
    by_cases hle : tsLe x y
    · rw [if_pos hle]
      simp only [List.filter_cons, hxb, Bool.false_eq_true, if_false]
    · rw [if_neg hle]
      simp only [List.filter_cons]
      rw [filter_orderedInsert_of_ne x t hx l]

theorem filter_sortLocations (t : Int) :
    ∀ l : List LocationEntry,
      (sortLocations l).filter (fun e => e.timestamp == t) =
        l.filter (fun e => e.timestamp == t)
  | [] => rfl
  | x :: l => by
    rw [sortLocations, List.insertionSort]
    by_cases hx : x.timestamp = t
    · have hxb : (x.timestamp == t) = true := by simp [hx]
      rw [filter_orderedInsert_of_eq x t hx]
      simp only [List.filter_cons, hxb, if_true]
      exact congrArg (List.cons x) (filter_sortLocations t l)
    · have hxb : (x.timestamp == t) = false := by
        simp only [beq_eq_false_iff_ne, ne_eq]
        exact hx
      rw [filter_orderedInsert_of_ne x t hx]
      simp only [List.filter_cons, hxb, Bool.false_eq_true, if_false]
      exact filter_sortLocations t l

/-! ### Claim theorems: C6, C7, C8 (batch orchestration) -/

/-- Claim C6 counterexample: with the curve implementation unavailable
(identity derivation throws for every device), the batch is NOT aborted:
both devices go through the ordinary per-device catch (two device failures
logged), no device is queried, and the batch completes normally with the
success toast `Fetched 0 location(s)` — the same handling as any other
per-device failure, where the claim says the whole batch is aborted,
unlike per-device failures. -/
theorem claim_c6_counterexample :
    fetchLocations curveDownEnv twoAccessories = .done curveDownResult ∧
    FetchOutcome.done curveDownResult ≠ .aborted ∧
    curveDownResult.deviceFailures = 2 ∧ curveDownResult.queried = [] := by
  exact ⟨rfl, by simp, rfl, rfl⟩

/-- Claim C6 (amended): an identity-derivation failure (CurveUnavailable)
is caught by the per-device catch like any other device failure: the batch
never reaches the aborted state; a device whose derivation fails is not
queried and contributes no locations, only one logged device failure; and
sibling devices are processed independently of it. -/
theorem claim_c6_amended (env : FetchEnv) (accessories : List Accessory) :
    fetchLocations env accessories ≠ .aborted ∧
    (∀ acc : Accessory, env.hashedAdvertisementKey acc.privateKey = .error () →
      processDevice env acc = ([], 1, 0, [])) ∧
    (∀ (a : Accessory) (rest : List Accessory),
      fetchLoop env (a :: rest) = combineBatch (processDevice env a) (fetchLoop env rest)) := by
  refine ⟨?_, ?_, ?_⟩
  · simp only [fetchLocations]
    by_cases hA : (accessories.filter (fun a => a.active)).isEmpty
    · simp [hA]
    · simp [hA]
  · intro acc h
    rw [processDevice, h]
  · intro a rest
    rfl

theorem claim_c6_amended_witness :
    processDevice curveDownEnv { id := 1, name := 1, privateKey := 1, active := true } =
      ([], 1, 0, []) :=
  (claim_c6_amended curveDownEnv twoAccessories).2.1 _ rfl

/-- Claim C7 counterexample: one device's query fails and the other yields
two decrypted reports; the partial results are returned, but the count the
batch reports (the toast `Fetched 2 location(s)`) is the SUCCESS count, not
a count of failures (there was 1 failure, and 2 ≠ 1); no failure count
accompanies the returned result — failures are only logged individually. -/
theorem claim_c7_counterexample :
    fetchLocations mixedEnv twoAccessories = .done mixedEnvResult ∧
    mixedEnvResult.toastCount = 2 ∧
    mixedEnvResult.locations.length = 2 ∧
    mixedEnvResult.deviceFailures + mixedEnvResult.reportFailures = 1 ∧
    mixedEnvResult.toastCount ≠ mixedEnvResult.deviceFailures + mixedEnvResult.reportFailures := by
  exact ⟨rfl, rfl, rfl, rfl, by decide⟩

/-- Claim C7 (amended): a report that fails decryption, or a device whose
query fails, does not prevent other devices or reports from being
processed (each loop iteration only appends its own contribution), and the
partial results are always returned together with a count of SUCCESSES
(the reported count equals the number of returned locations); failures are
logged per event, not counted in the reported result. -/
theorem claim_c7_amended (env : FetchEnv) (accessories : List Accessory) :
    (∀ r : BatchResult, fetchLocations env accessories = .done r →
      r.toastCount = r.locations.length) ∧
    (∀ (acc : Accessory) (rep : Nat) (rest : List Nat),
      env.decryptReport rep acc.privateKey = .error () →
      decryptLoop env acc (rep :: rest) =
        ((decryptLoop env acc rest).1, (decryptLoop env acc rest).2 + 1)) ∧
    (∀ (a : Accessory) (rest : List Accessory),
      (fetchLoop env (a :: rest)).1 = (processDevice env a).1 ++ (fetchLoop env rest).1 ∧
      (fetchLoop env (a :: rest)).2.1 = (processDevice env a).2.1 + (fetchLoop env rest).2.1) := by
  refine ⟨?_, ?_, ?_⟩
  · intro r h
    simp only [fetchLocations] at h
    by_cases hA : (accessories.filter (fun a => a.active)).isEmpty
    · rw [if_pos hA] at h
      exact absurd h (by simp)
    · rw [if_neg hA] at h
      injection h with h2
      rw [← h2]
  · intro acc rep rest h
    simp only [decryptLoop, h]
  · intro a rest
    exact ⟨rfl, rfl⟩

theorem claim_c7_amended_witness :
    mixedEnvResult.toastCount = mixedEnvResult.locations.length :=
  (claim_c7_amended mixedEnv twoAccessories).1 mixedEnvResult rfl

/-- Claim C8: for every batch run, the list of successfully decrypted
locations is sorted ascending by timestamp, and the sort is stable: for
every timestamp, the locations carrying it appear in exactly their input
(collection) order. -/
theorem claim_c8_sorted_stable (env : FetchEnv) (accessories : List Accessory)
    (r : BatchResult) (h : fetchLocations env accessories = .done r) :
    List.Sorted tsLe r.locations ∧
    ∀ t : Int, r.locations.filter (fun e => e.timestamp == t) =
      (fetchLoop env (accessories.filter (fun a => a.active))).1.filter
        (fun e => e.timestamp == t) := by
  simp only [fetchLocations] at h
  by_cases hA : (accessories.filter (fun a => a.active)).isEmpty
  · rw [if_pos hA] at h
    exact absurd h (by simp)
  · rw [if_neg hA] at h
    injection h with h2
    rw [← h2]
    constructor
    · exact List.sorted_insertionSort tsLe _
    · intro t
      exact filter_sortLocations t _

theorem claim_c8_sorted_stable_witness :
    List.Sorted tsLe tieEnvResult.locations ∧
    tieEnvResult.locations.filter (fun e => e.timestamp == 5) =
      (fetchLoop tieEnv (oneAccessory.filter (fun a => a.active))).1.filter
        (fun e => e.timestamp == 5) :=
  ⟨(claim_c8_sorted_stable tieEnv oneAccessory tieEnvResult rfl).1,
   (claim_c8_sorted_stable tieEnv oneAccessory tieEnvResult rfl).2 5⟩

end Haystack
